import Mathlib

/-!
Shallow embedding of the index computation engine of the sihBackend
repository (`utils/calculateIndices.js`, two historical variants), together
with theorems checking the natural-language specification against it.

JavaScript numbers are modelled as exact rationals (`ℚ`); a value stored in
a JS object is modelled by `JSVal`: a finite numeric value (numbers and
numeric strings, which coerce alike under `Number(x)`), a value whose
numeric coercion is `NaN` (non-numeric strings and the like), or the
literal `undefined`.  JS objects (`sample.metals`, `sample.waterQuality`)
are modelled as association lists with string keys.
-/

set_option autoImplicit false

set_option allowUnsafeReducibility true

attribute [semireducible] Rat.add Rat.mul Rat.inv Rat.sub Rat.div Rat.ofScientific

namespace SihBackend

/-- A JavaScript value as stored in the `metals` / `waterQuality` objects. -/
inductive JSVal where
  /-- a value whose `Number(·)` coercion is the finite rational `q` -/
  | num (q : ℚ)
  /-- a defined value whose `Number(·)` coercion is `NaN` -/
  | nan
  /-- the literal `undefined` stored under a key -/
  | undef
  deriving DecidableEq

/-- Property access `obj[k]`: first entry with the key, if any. -/
def jsLookup (obj : List (String × JSVal)) (k : String) : Option JSVal :=
  (obj.find? (fun p => p.1 == k)).map (fun p => p.2)

/-- The JS test `v !== undefined` on the result of a property access. -/
def jsDefined : Option JSVal → Bool
  | some (JSVal.num _) => true
  | some JSVal.nan => true
  | some JSVal.undef => false
  | none => false

/-- `Number(v) || d`: the numeric coercion when it is a nonzero finite
number, otherwise the default `d` (JS `||` also replaces `0` and `NaN`). -/
def numOr (d : ℚ) : Option JSVal → ℚ
  | some (JSVal.num q) => if q = 0 then d else q
  | _ => d

/-- Input of the engine: the `sample` argument of `computeIndices`. -/
structure MeasurementSet where
  metals : List (String × JSVal)
  waterQuality : List (String × JSVal)
  deriving DecidableEq

/-- Output of the engine: `{hpi, mi, cd, category}`. -/
structure IndexResult where
  hpi : ℚ
  mi : ℚ
  cd : ℚ
  category : String
  deriving DecidableEq

/-- `Number(x.toFixed(3))`: round to 3 decimal digits, to the nearest
multiple of `1/1000` (ties, which no claim exercises, go upward). -/
def round3 (q : ℚ) : ℚ := (((q * 1000 + 1 / 2 : ℚ).floor : ℚ)) / 1000

/-! ## Variant A — minimal fixed 4-metal formula -/

/-- Variant A of `computeIndices` (lines 66–84 of the source). -/
def computeIndicesA (sample : MeasurementSet) : IndexResult :=
  let metals := sample.metals
  let lead := numOr 0 (jsLookup metals "lead")
  let cadmium := numOr 0 (jsLookup metals "cadmium")
  let arsenic := numOr 0 (jsLookup metals "arsenic")
  let chromium := numOr 0 (jsLookup metals "chromium")
  let hpi := round3 ((lead + cadmium + arsenic + chromium) * 100)
  let mi := round3 ((lead + cadmium) * 10)
  let cd := round3 (arsenic * 50)
  let category :=
    if hpi > 100 ∨ mi > 20 ∨ cd > 10 then "unsafe"
    else if hpi > 50 ∨ mi > 10 ∨ cd > 5 then "moderate"
    else "safe"
  { hpi := hpi, mi := mi, cd := cd, category := category }

/-! ## Variant B — extended threshold-normalized formula -/

/-- The extended `THRESHOLDS` table (lines 88–104 of the source). -/
def THRESHOLDS : String → Option ℚ
  | "lead" => some 0.01
  | "cadmium" => some 0.003
  | "arsenic" => some 0.01
  | "chromium" => some 0.05
  | "mercury" => some 0.001
  | "uranium" => some 0.03
  | "iron" => some 0.3
  | "fluoride" => some 1.0
  | "nitrate" => some 45
  | "pH_min" => some 6.5
  | "pH_max" => some 8.5
  | "tds" => some 500
  | _ => none

/-- `THRESHOLDS[m]` where the key is known to be in the table. -/
def thr (m : String) : ℚ := (THRESHOLDS m).getD 0

/-- `Object.keys(metals).filter((m) => metals[m] !== undefined &&
THRESHOLDS[m] !== undefined)`. -/
def metalKeys (ms : MeasurementSet) : List String :=
  (ms.metals.map Prod.fst).filter
    (fun m => jsDefined (jsLookup ms.metals m) && (THRESHOLDS m).isSome)

/-- `Number(metals[m]) || 0`: coerced concentration of key `m`. -/
def conc (ms : MeasurementSet) (m : String) : ℚ :=
  numOr 0 (jsLookup ms.metals m)

/-- Variant B HPI: `Σ (c_m / t_m) * 100` over `metalKeys`, rounded, else 0. -/
def hpiB (ms : MeasurementSet) : ℚ :=
  if (metalKeys ms).length ≠ 0 then
    round3 (((metalKeys ms).map (fun m => conc ms m / thr m * 100)).sum)
  else 0

/-- Variant B MI: `(Σ c_m / |K|) * 10`, rounded, else 0. -/
def miB (ms : MeasurementSet) : ℚ :=
  if (metalKeys ms).length ≠ 0 then
    round3 ((((metalKeys ms).map (fun m => conc ms m)).sum /
      ((metalKeys ms).length : ℚ)) * 10)
  else 0

/-- Variant B CD: `Σ (c_m / t_m)`, rounded, else 0. -/
def cdB (ms : MeasurementSet) : ℚ :=
  if (metalKeys ms).length ≠ 0 then
    round3 (((metalKeys ms).map (fun m => conc ms m / thr m)).sum)
  else 0

/-- `Number(waterQuality.pH) || 7`. -/
def pHB (ms : MeasurementSet) : ℚ := numOr 7 (jsLookup ms.waterQuality "pH")

/-- `Number(waterQuality.tds) || 0`. -/
def tdsB (ms : MeasurementSet) : ℚ := numOr 0 (jsLookup ms.waterQuality "tds")

/-- `Number(waterQuality.fluoride) || 0`. -/
def fluorideB (ms : MeasurementSet) : ℚ :=
  numOr 0 (jsLookup ms.waterQuality "fluoride")

/-- `Number(waterQuality.nitrate) || 0`. -/
def nitrateB (ms : MeasurementSet) : ℚ :=
  numOr 0 (jsLookup ms.waterQuality "nitrate")

/-- `metalKeys.some((m) => (Number(metals[m]) || 0) > THRESHOLDS[m])`. -/
def exceedsMetal (ms : MeasurementSet) : Bool :=
  (metalKeys ms).any (fun m => decide (conc ms m > thr m))

/-- The `exceedsOther` flag (lines 144–149 of the source). -/
def exceedsOther (ms : MeasurementSet) : Bool :=
  decide (fluorideB ms > thr "fluoride" * 1.5) ||
  decide (nitrateB ms > thr "nitrate") ||
  decide (tdsB ms > thr "tds" * 2) ||
  decide (pHB ms < thr "pH_min") ||
  decide (pHB ms > thr "pH_max")

/-- Variant B category decision (lines 139–155 of the source). -/
def categoryB (ms : MeasurementSet) : String :=
  if hpiB ms > 100 ∨ miB ms > 1 ∨ cdB ms > 3 ∨
      exceedsMetal ms = true ∨ exceedsOther ms = true then "unsafe"
  else if hpiB ms > 50 ∨ miB ms > 0.5 ∨ cdB ms > 1.5 then "moderate"
  else "safe"

/-- Variant B of `computeIndices` (lines 106–158 of the source). -/
def computeIndicesB (ms : MeasurementSet) : IndexResult :=
  { hpi := hpiB ms, mi := miB ms, cd := cdB ms, category := categoryB ms }

/-! ## Helper lemmas -/

/-- Rounding preserves non-negativity. -/
theorem round3_nonneg {q : ℚ} (h : 0 ≤ q) : 0 ≤ round3 q := by
  have h1 : (0 : ℚ) ≤ q * 1000 + 1 / 2 := by linarith
  have h2 : (0 : ℤ) ≤ ⌊q * 1000 + 1 / 2⌋ := Int.floor_nonneg.mpr h1
  have h3 : (0 : ℚ) ≤ ((⌊q * 1000 + 1 / 2⌋ : ℤ) : ℚ) := by exact_mod_cast h2
  have h4 : round3 q = ((⌊q * 1000 + 1 / 2⌋ : ℤ) : ℚ) / 1000 := rfl
  rw [h4]
  exact div_nonneg h3 (by norm_num)

/-- `Number(v) || 0` on an actual number is that number. -/
theorem numOr_zero_num (q : ℚ) : numOr 0 (some (JSVal.num q)) = q := by
  unfold numOr
  by_cases h : q = 0 <;> simp [h]

/-- The key list of the active metals has no duplicates when the input
object's keys have none. -/
theorem metalKeys_nodup {ms : MeasurementSet}
    (h : (ms.metals.map Prod.fst).Nodup) : (metalKeys ms).Nodup :=
  List.Nodup.filter _ h

/-- A key listed in an object is found by lookup, at a value stored in the
object. -/
theorem jsLookup_mem {l : List (String × JSVal)} {k : String}
    (hk : k ∈ l.map Prod.fst) : ∃ v, jsLookup l k = some v ∧ (k, v) ∈ l := by
  induction l with
  | nil => simp at hk
  | cons p t ih =>
    rcases eq_or_ne p.1 k with hpk | hpk
    · refine ⟨p.2, ?_, ?_⟩
      · unfold jsLookup
        rw [List.find?_cons_of_pos]
        · rfl
        · simp [hpk]
      · have hp : (k, p.2) = p := by
          cases p
          simp_all
        rw [hp]
        exact List.mem_cons_self _ _
    · have hk2 : k ∈ t.map Prod.fst := by
        rcases List.mem_map.mp hk with ⟨q, hq, hqk⟩
        rcases List.mem_cons.mp hq with rfl | hqt
        · exact absurd hqk hpk
        · exact List.mem_map.mpr ⟨q, hqt, hqk⟩
      rcases ih hk2 with ⟨v, hfind, hmem⟩
      refine ⟨v, ?_, List.mem_cons_of_mem _ hmem⟩
      unfold jsLookup at hfind ⊢
      rw [List.find?_cons_of_neg]
      · exact hfind
      · simp [hpk]

/-- `exceedsMetal` on a single-entry metals object reduces to the strict
comparison of that entry's value against its threshold. -/
theorem exceedsMetal_single (k : String) (q : ℚ) (h : (THRESHOLDS k).isSome) :
    exceedsMetal { metals := [(k, JSVal.num q)], waterQuality := [] } =
      decide (q > thr k) := by
  have h1 : metalKeys { metals := [(k, JSVal.num q)], waterQuality := [] } = [k] := by
    unfold metalKeys jsLookup
    simp [List.find?, jsDefined, h]
  have h2 : conc { metals := [(k, JSVal.num q)], waterQuality := [] } k = q := by
    unfold conc jsLookup
    simp [List.find?, numOr_zero_num]
  unfold exceedsMetal
  rw [h1]
  simp [h2]

/-! ## Claim theorems -/

/-- C1: Variant B assigns the category by first-match-wins rules:
`unsafe` if `hpi > 100 ∨ mi > 1 ∨ cd > 3 ∨ exceedsMetal ∨ exceedsOther`,
otherwise `moderate` if `hpi > 50 ∨ mi > 0.5 ∨ cd > 1.5`, otherwise
`safe`; in particular an exceedance flag alone forces `unsafe`, taking
precedence over `moderate`. -/
theorem C1_variantB_category_rule (ms : MeasurementSet) :
    ((computeIndicesB ms).category =
      if hpiB ms > 100 ∨ miB ms > 1 ∨ cdB ms > 3 ∨
          exceedsMetal ms = true ∨ exceedsOther ms = true then "unsafe"
      else if hpiB ms > 50 ∨ miB ms > 0.5 ∨ cdB ms > 1.5 then "moderate"
      else "safe")
    ∧ (exceedsMetal ms = true ∨ exceedsOther ms = true →
        (computeIndicesB ms).category = "unsafe") := by
  constructor
  · rfl
  · intro h
    have hc : hpiB ms > 100 ∨ miB ms > 1 ∨ cdB ms > 3 ∨
        exceedsMetal ms = true ∨ exceedsOther ms = true := by tauto
    show categoryB ms = "unsafe"
    unfold categoryB
    rw [if_pos hc]

/-- Witness for C1: a sample whose only violation is the `exceedsOther`
flag (pH 9 with all indices 0) is categorized `unsafe`. -/
theorem C1_variantB_category_rule_witness :
    (computeIndicesB { metals := [], waterQuality := [("pH", JSVal.num 9)] }).category =
      "unsafe" :=
  (C1_variantB_category_rule _).2 (Or.inr (by decide))

/-- C5: `exceedsOther` is true exactly when fluoride, nitrate, tds or pH
(coerced scalars with their defaults) violate `fluoride > limit * 1.5`,
`nitrate > limit`, `tds > limit * 2`, `pH < pH_min` or `pH > pH_max`; the
relevant limits are 1.0, 45, 500, 6.5, 8.5; and for `metals = {}`,
`waterQuality = {pH: 9.0}` the result is `hpi = mi = cd = 0` with
category `unsafe`. -/
theorem C5_exceedsOther_rule (ms : MeasurementSet) :
    (exceedsOther ms = true ↔
      (fluorideB ms > thr "fluoride" * 1.5 ∨ nitrateB ms > thr "nitrate" ∨
       tdsB ms > thr "tds" * 2 ∨ pHB ms < thr "pH_min" ∨ pHB ms > thr "pH_max"))
    ∧ (thr "fluoride" = 1.0 ∧ thr "nitrate" = 45 ∧ thr "tds" = 500 ∧
       thr "pH_min" = 6.5 ∧ thr "pH_max" = 8.5)
    ∧ computeIndicesB { metals := [], waterQuality := [("pH", JSVal.num 9)] } =
        { hpi := 0, mi := 0, cd := 0, category := "unsafe" } := by
  refine ⟨?_, by decide, by decide⟩
  unfold exceedsOther
  simp only [Bool.or_eq_true, decide_eq_true_eq]
  tauto

/-- C8: Variant A uses only lead, cadmium, arsenic and chromium with the
fixed formulas `hpi = round3((lead+cadmium+arsenic+chromium)*100)`,
`mi = round3((lead+cadmium)*10)`, `cd = round3(arsenic*50)` and thresholds
100/20/10 (unsafe) and 50/10/5 (moderate); the concrete input
`{lead:0.02, cadmium:0.001, arsenic:0.005, chromium:0.01}` yields
`hpi = 3.6, mi = 0.21, cd = 0.25`, category `safe`. -/
theorem C8_variantA_formula (ms : MeasurementSet) :
    (computeIndicesA ms).hpi =
      round3 ((conc ms "lead" + conc ms "cadmium" + conc ms "arsenic" +
        conc ms "chromium") * 100)
    ∧ (computeIndicesA ms).mi = round3 ((conc ms "lead" + conc ms "cadmium") * 10)
    ∧ (computeIndicesA ms).cd = round3 (conc ms "arsenic" * 50)
    ∧ (computeIndicesA ms).category =
        (if (computeIndicesA ms).hpi > 100 ∨ (computeIndicesA ms).mi > 20 ∨
            (computeIndicesA ms).cd > 10 then "unsafe"
         else if (computeIndicesA ms).hpi > 50 ∨ (computeIndicesA ms).mi > 10 ∨
            (computeIndicesA ms).cd > 5 then "moderate"
         else "safe")
    ∧ computeIndicesA { metals := [("lead", JSVal.num 0.02), ("cadmium", JSVal.num 0.001),
        ("arsenic", JSVal.num 0.005), ("chromium", JSVal.num 0.01)], waterQuality := [] } =
      { hpi := 3.6, mi := 0.21, cd := 0.25, category := "safe" } :=
  ⟨rfl, rfl, rfl, rfl, by decide⟩

/-- C9 counterexample: the input `waterQuality = {pH: 0}` supplies the
numeric pH value 0, yet the scalar compared against the bounds is the
default 7, and `exceedsOther` is false — although the supplied value 0 is
below `pH_min`, so using it would have set the flag. -/
theorem C9_pH_zero_counterexample :
    jsLookup (MeasurementSet.waterQuality
        { metals := [], waterQuality := [("pH", JSVal.num 0)] }) "pH" =
      some (JSVal.num 0)
    ∧ pHB { metals := [], waterQuality := [("pH", JSVal.num 0)] } = 7
    ∧ exceedsOther { metals := [], waterQuality := [("pH", JSVal.num 0)] } = false
    ∧ (0 : ℚ) < thr "pH_min" := by decide

/-- C9 (amended): the pH scalar used by `exceedsOther` is the default 7
exactly when the `waterQuality` pH field is absent, non-numeric,
undefined, or numerically zero; any nonzero numeric pH value supplied is
the one compared against the bounds. -/
theorem C9_pH_default_amended (ms : MeasurementSet) :
    ((jsLookup ms.waterQuality "pH" = none ∨
      jsLookup ms.waterQuality "pH" = some JSVal.nan ∨
      jsLookup ms.waterQuality "pH" = some JSVal.undef ∨
      jsLookup ms.waterQuality "pH" = some (JSVal.num 0)) → pHB ms = 7)
    ∧ (∀ q : ℚ, q ≠ 0 → jsLookup ms.waterQuality "pH" = some (JSVal.num q) →
        pHB ms = q) := by
  constructor
  · intro h
    unfold pHB
    rcases h with h | h | h | h <;> rw [h] <;> simp [numOr]
  · intro q hq h
    unfold pHB
    rw [h]
    simp [numOr, hq]

/-- Witness for C9 (amended): a supplied nonzero pH of 9 is used as-is. -/
theorem C9_pH_default_amended_witness :
    pHB { metals := [], waterQuality := [("pH", JSVal.num 9)] } = 9 :=
  (C9_pH_default_amended _).2 9 (by norm_num) (by decide)

/-- C10: the threshold table also holds the non-metal entries (fluoride,
nitrate, tds, pH_min, pH_max), and a metals mapping whose key is such an
entry — here `{tds: 600}` — participates as a metal: it alone makes up the
active key set, contributes to hpi, mi and cd with the non-metal limit 500
as its threshold, sets `exceedsMetal`, and drives the category, instead of
being ignored as an unknown metal. -/
theorem C10_nonmetal_keys_participate :
    THRESHOLDS "fluoride" = some 1.0 ∧ THRESHOLDS "nitrate" = some 45 ∧
    THRESHOLDS "tds" = some 500 ∧ THRESHOLDS "pH_min" = some 6.5 ∧
    THRESHOLDS "pH_max" = some 8.5 ∧
    metalKeys { metals := [("tds", JSVal.num 600)], waterQuality := [] } = ["tds"] ∧
    hpiB { metals := [("tds", JSVal.num 600)], waterQuality := [] } = 120 ∧
    miB { metals := [("tds", JSVal.num 600)], waterQuality := [] } = 6000 ∧
    cdB { metals := [("tds", JSVal.num 600)], waterQuality := [] } = 1.2 ∧
    exceedsMetal { metals := [("tds", JSVal.num 600)], waterQuality := [] } = true ∧
    (computeIndicesB { metals := [("tds", JSVal.num 600)], waterQuality := [] }).category =
      "unsafe" := by decide

/-- C2: over the active key set K (keys present in both the metals mapping
and the threshold table), Variant B computes
`hpi = round3(Σ (c_k / t_k) * 100)` and `cd = round3(Σ (c_k / t_k))`,
both equal to 0 when K is empty; and (when no stored value is the literal
`undefined`) K is exactly the metals keys that appear in the table. -/
theorem C2_variantB_hpi_cd (ms : MeasurementSet)
    (h : (ms.metals.map Prod.fst).Nodup) :
    (hpiB ms = if metalKeys ms = [] then 0
      else round3 (∑ k ∈ (metalKeys ms).toFinset, conc ms k / thr k * 100))
    ∧ (cdB ms = if metalKeys ms = [] then 0
      else round3 (∑ k ∈ (metalKeys ms).toFinset, conc ms k / thr k))
    ∧ ((∀ p ∈ ms.metals, p.2 ≠ JSVal.undef) →
        (metalKeys ms).toFinset =
          (ms.metals.map Prod.fst).toFinset.filter (fun k => (THRESHOLDS k).isSome)) := by
  have hnd : (metalKeys ms).Nodup := metalKeys_nodup h
  refine ⟨?_, ?_, ?_⟩
  · unfold hpiB
    by_cases hK : metalKeys ms = []
    · simp [hK]
    · have hlen : (metalKeys ms).length ≠ 0 := by simpa [List.length_eq_zero] using hK
      rw [if_pos hlen, if_neg hK, List.sum_toFinset _ hnd]
  · unfold cdB
    by_cases hK : metalKeys ms = []
    · simp [hK]
    · have hlen : (metalKeys ms).length ≠ 0 := by simpa [List.length_eq_zero] using hK
      rw [if_pos hlen, if_neg hK, List.sum_toFinset _ hnd]
  · intro hu
    ext k
    constructor
    · intro hk
      have hk2 := List.mem_toFinset.mp hk
      unfold metalKeys at hk2
      have hm := List.mem_filter.mp hk2
      rw [Finset.mem_filter]
      refine ⟨List.mem_toFinset.mpr hm.1, ?_⟩
      have hb := hm.2
      rw [Bool.and_eq_true] at hb
      exact hb.2
    · intro hk
      rw [Finset.mem_filter] at hk
      have hk1 := List.mem_toFinset.mp hk.1
      rcases jsLookup_mem hk1 with ⟨v, hfind, hmem⟩
      rw [List.mem_toFinset]
      unfold metalKeys
      rw [List.mem_filter]
      refine ⟨hk1, ?_⟩
      rw [Bool.and_eq_true]
      refine ⟨?_, hk.2⟩
      rw [hfind]
      have hv := hu _ hmem
      cases v with
      | num q => rfl
      | nan => rfl
      | undef => exact absurd rfl hv

/-- Witness for C2: the single-metal input `{lead: 0.02}` instantiates the
hpi clause (the sum over K = {lead} is rounded). -/
theorem C2_variantB_hpi_cd_witness :
    hpiB { metals := [("lead", JSVal.num 0.02)], waterQuality := [] } =
      if metalKeys { metals := [("lead", JSVal.num 0.02)], waterQuality := [] } = [] then 0
      else round3 (∑ k ∈
        (metalKeys { metals := [("lead", JSVal.num 0.02)], waterQuality := [] }).toFinset,
        conc { metals := [("lead", JSVal.num 0.02)], waterQuality := [] } k / thr k * 100) :=
  (C2_variantB_hpi_cd _ (by decide)).1

/-- C3: Variant B computes `mi = round3((Σ c_k / |K|) * 10)` when K is
nonempty — the average active-metal concentration scaled by 10, with no
threshold normalization — and `mi = 0` when K is empty. -/
theorem C3_variantB_mi (ms : MeasurementSet)
    (h : (ms.metals.map Prod.fst).Nodup) :
    miB ms = if metalKeys ms = [] then 0
      else round3 ((∑ k ∈ (metalKeys ms).toFinset, conc ms k) /
        ((metalKeys ms).toFinset.card : ℚ) * 10) := by
  have hnd : (metalKeys ms).Nodup := metalKeys_nodup h
  unfold miB
  by_cases hK : metalKeys ms = []
  · simp [hK]
  · have hlen : (metalKeys ms).length ≠ 0 := by simpa [List.length_eq_zero] using hK
    rw [if_pos hlen, if_neg hK, List.sum_toFinset _ hnd, List.toFinset_card_of_nodup hnd]

/-- Witness for C3: the single-metal input `{cadmium: 0.003}` instantiates
the mi formula. -/
theorem C3_variantB_mi_witness :
    miB ⟨[("cadmium", JSVal.num 0.003)], []⟩ =
      if metalKeys ⟨[("cadmium", JSVal.num 0.003)], []⟩ = [] then 0
      else round3 ((∑ k ∈
        (metalKeys ⟨[("cadmium", JSVal.num 0.003)], []⟩).toFinset,
        conc ⟨[("cadmium", JSVal.num 0.003)], []⟩ k) /
        ((metalKeys (⟨[("cadmium", JSVal.num 0.003)], []⟩ :
          MeasurementSet)).toFinset.card : ℚ) * 10) :=
  C3_variantB_mi _ (by decide)

/-- C4: `exceedsMetal` holds iff some active key's coerced concentration
strictly exceeds its threshold; a single metal at exactly its threshold
does not trigger it, while exceeding the threshold by any `e > 0` does. -/
theorem C4_exceedsMetal_strict (ms : MeasurementSet) :
    (exceedsMetal ms = true ↔ ∃ k ∈ metalKeys ms, conc ms k > thr k)
    ∧ (∀ (k : String) (t e : ℚ), THRESHOLDS k = some t → 0 < e →
        exceedsMetal { metals := [(k, JSVal.num t)], waterQuality := [] } = false ∧
        exceedsMetal { metals := [(k, JSVal.num (t + e))], waterQuality := [] } = true) := by
  constructor
  · unfold exceedsMetal
    rw [List.any_eq_true]
    simp only [decide_eq_true_eq]
  · intro k t e ht he
    have hsome : (THRESHOLDS k).isSome := by rw [ht]; rfl
    have hthr : thr k = t := by unfold thr; rw [ht]; rfl
    constructor
    · rw [exceedsMetal_single k t hsome, hthr]
      rw [decide_eq_false_iff_not]
      exact lt_irrefl t
    · rw [exceedsMetal_single k (t + e) hsome, hthr]
      simp only [decide_eq_true_eq]
      linarith

/-- Witness for C4: lead at exactly its limit 0.01 does not set the flag;
lead at 0.01 + 0.001 does. -/
theorem C4_exceedsMetal_strict_witness :
    exceedsMetal { metals := [("lead", JSVal.num 0.01)], waterQuality := [] } = false ∧
    exceedsMetal { metals := [("lead", JSVal.num (0.01 + 0.001))], waterQuality := [] } =
      true :=
  (C4_exceedsMetal_strict { metals := [], waterQuality := [] }).2 "lead" 0.01 0.001
    (by decide) (by norm_num)

/-- The three-way category chain can only produce the three labels. -/
theorem cat_cases (p q : Prop) [Decidable p] [Decidable q] :
    (if p then "unsafe" else if q then "moderate" else "safe") = "safe" ∨
    (if p then "unsafe" else if q then "moderate" else "safe") = "moderate" ∨
    (if p then "unsafe" else if q then "moderate" else "safe") = "unsafe" := by
  split_ifs <;> simp

/-- C6: both variants are total — every input yields a well-formed result
whose category is one of the three labels; malformed or missing fields
coerce to 0 (7 for pH); and in Variant A the three numeric outputs are
non-negative whenever the four coerced metal inputs are. -/
theorem C6_totality (ms : MeasurementSet) :
    ((computeIndicesA ms).category = "safe" ∨ (computeIndicesA ms).category = "moderate" ∨
      (computeIndicesA ms).category = "unsafe")
    ∧ ((computeIndicesB ms).category = "safe" ∨ (computeIndicesB ms).category = "moderate" ∨
      (computeIndicesB ms).category = "unsafe")
    ∧ (numOr 0 none = 0 ∧ numOr 0 (some JSVal.nan) = 0 ∧ numOr 0 (some JSVal.undef) = 0 ∧
       numOr 7 none = 7 ∧ numOr 7 (some JSVal.nan) = 7 ∧ numOr 7 (some JSVal.undef) = 7)
    ∧ (0 ≤ conc ms "lead" → 0 ≤ conc ms "cadmium" → 0 ≤ conc ms "arsenic" →
        0 ≤ conc ms "chromium" →
        0 ≤ (computeIndicesA ms).hpi ∧ 0 ≤ (computeIndicesA ms).mi ∧
          0 ≤ (computeIndicesA ms).cd) := by
  refine ⟨cat_cases _ _, cat_cases _ _, by decide, ?_⟩
  intro h1 h2 h3 h4
  unfold conc at h1 h2 h3 h4
  refine ⟨round3_nonneg ?_, round3_nonneg ?_, round3_nonneg ?_⟩
  · nlinarith
  · nlinarith
  · nlinarith

/-- Witness for C6: the empty input has all coerced metals 0 and all three
Variant A outputs non-negative. -/
theorem C6_totality_witness :
    0 ≤ (computeIndicesA { metals := [], waterQuality := [] }).hpi ∧
    0 ≤ (computeIndicesA { metals := [], waterQuality := [] }).mi ∧
    0 ≤ (computeIndicesA { metals := [], waterQuality := [] }).cd :=
  (C6_totality { metals := [], waterQuality := [] }).2.2.2
    (by decide) (by decide) (by decide) (by decide)

/-- C7: when no metals key overlaps the threshold table and the coerced
water-quality scalars are within bounds (fluoride ≤ 1.5·limit,
nitrate ≤ limit, tds ≤ 2·limit, pH within [pH_min, pH_max]), Variant B
returns `hpi = mi = cd = 0` and category `safe`. -/
theorem C7_no_overlap_safe (ms : MeasurementSet)
    (hK : ∀ k ∈ ms.metals.map Prod.fst, THRESHOLDS k = none)
    (hf : fluorideB ms ≤ thr "fluoride" * 1.5)
    (hn : nitrateB ms ≤ thr "nitrate")
    (ht : tdsB ms ≤ thr "tds" * 2)
    (hp1 : thr "pH_min" ≤ pHB ms)
    (hp2 : pHB ms ≤ thr "pH_max") :
    computeIndicesB ms = { hpi := 0, mi := 0, cd := 0, category := "safe" } := by
  have hkeys : metalKeys ms = [] := by
    unfold metalKeys
    rw [List.filter_eq_nil_iff]
    intro k hk
    simp [hK k hk]
  have hhpi : hpiB ms = 0 := by unfold hpiB; simp [hkeys]
  have hmi : miB ms = 0 := by unfold miB; simp [hkeys]
  have hcd : cdB ms = 0 := by unfold cdB; simp [hkeys]
  have hem : exceedsMetal ms = false := by unfold exceedsMetal; simp [hkeys]
  have heo : exceedsOther ms = false := by
    unfold exceedsOther
    simp only [Bool.or_eq_false_iff, decide_eq_false_iff_not, not_lt]
    exact ⟨⟨⟨⟨hf, hn⟩, ht⟩, hp1⟩, hp2⟩
  have hcat : categoryB ms = "safe" := by
    unfold categoryB
    rw [hhpi, hmi, hcd, hem, heo]
    norm_num
  unfold computeIndicesB
  rw [hhpi, hmi, hcd, hcat]

/-- Witness for C7: the empty input (pH defaulting to 7, all other scalars
0) is safe with all indices 0. -/
theorem C7_no_overlap_safe_witness :
    computeIndicesB { metals := [], waterQuality := [] } =
      { hpi := 0, mi := 0, cd := 0, category := "safe" } :=
  C7_no_overlap_safe { metals := [], waterQuality := [] }
    (by simp) (by decide) (by decide) (by decide) (by decide) (by decide)

end SihBackend
